import Mathlib

/-!
Shallow embedding of the gem-finder market-momentum pipeline.

Numbers are modelled by rationals.  A JSON field that may be absent is an
`Option` (for the BloFin ticker fields, `none` stands for a `parseFloat`
result of NaN), and the CoinGecko fallback fields use `JVal`, a three-valued
type distinguishing `undefined`, `null` and a finite number, because the
source discriminates those cases (`!== undefined`, `!== null`, truthiness).
Arithmetic whose JavaScript value would be NaN is made explicit as `Option`
results (`none` = NaN).
-/

/-- Directional category assigned to a scored record. -/
inductive Category where
  | pumping
  | dumping
  | neutral
deriving DecidableEq, Inhabited

/-- A BloFin ticker after the `parseFloat` calls of the source: each numeric
field is `none` when the parse gave NaN. -/
structure RawTicker where
  instId : String
  volCurrency24h : Option ℚ
  last : Option ℚ
  open24h : Option ℚ
  high24h : Option ℚ
  low24h : Option ℚ
deriving DecidableEq, Inhabited

/-- JavaScript truthiness gate on a parsed number: the source pattern
`if (!x) continue` drops NaN and 0; the survivors are returned. -/
def truthyNum : Option ℚ → Option ℚ
  | none => none
  | some q => if q = 0 then none else some q

/-- One aggregated BloFin base-currency record (script.js lines 156-167). -/
structure AggRecord where
  base : String
  totalVolume : ℚ
  last : ℚ
  open24 : ℚ
  high24 : ℚ
  low24 : ℚ
  priceChange24 : ℚ
  category : Category
  completion : ℚ
  predictedAmplitude : ℚ
deriving DecidableEq, Inhabited

/-- `((last - open24) / open24) * 100` of script.js line 144. -/
def priceChange24Of (last open24 : ℚ) : ℚ := (last - open24) / open24 * 100

/-- `priceChange24 >= 0 ? "pumping" : "dumping"` of script.js line 145. -/
def categoryOf (priceChange24 : ℚ) : Category :=
  if 0 ≤ priceChange24 then Category.pumping else Category.dumping

/-- `category === "pumping" ? high24 - open24 : open24 - low24` of
script.js line 148. -/
def amplitudeOf (category : Category) (open24 high24 low24 : ℚ) : ℚ :=
  if category = Category.pumping then high24 - open24 else open24 - low24

/-- `Math.max(0, Math.min(100, Math.abs(last - open24) / predictedAmplitude * 100))`
of script.js lines 152-155. -/
def completionOf (last open24 predictedAmplitude : ℚ) : ℚ :=
  max 0 (min 100 (|last - open24| / predictedAmplitude * 100))

/-- Builds the aggregated record from the primary ticker of a base currency
(script.js lines 137-167): the four prices must be truthy, the 24h change
decides the category, a non-positive predicted amplitude is rejected, and the
completion is clamped to [0, 100]. -/
def aggrFromTicker (base : String) (totalVolume : ℚ) (pt : RawTicker) : Option AggRecord :=
  match truthyNum pt.last, truthyNum pt.open24h, truthyNum pt.high24h, truthyNum pt.low24h with
  | some last, some open24, some high24, some low24 =>
    if amplitudeOf (categoryOf (priceChange24Of last open24)) open24 high24 low24 ≤ 0 then
      none
    else
      some {
        base := base
        totalVolume := totalVolume
        last := last
        open24 := open24
        high24 := high24
        low24 := low24
        priceChange24 := priceChange24Of last open24
        category := categoryOf (priceChange24Of last open24)
        completion :=
          completionOf last open24
            (amplitudeOf (categoryOf (priceChange24Of last open24)) open24 high24 low24)
        predictedAmplitude :=
          amplitudeOf (categoryOf (priceChange24Of last open24)) open24 high24 low24 }
  | _, _, _, _ => none

/-- Accumulator of the per-base instrument loop (script.js lines 122-133). -/
structure TickAcc where
  totalVolume : ℚ
  primaryTicker : Option RawTicker
deriving DecidableEq, Inhabited

/-- One step of the per-base instrument loop: skip missing tickers and NaN
volumes, sum the volume, and keep the highest-volume ticker as primary
(a NaN stored volume never loses the comparison, as in JS `NaN < v`). -/
def stepTick (tm : String → Option RawTicker) (acc : TickAcc) (instId : String) : TickAcc :=
  match tm instId with
  | none => acc
  | some tick =>
    match tick.volCurrency24h with
    | none => acc
    | some vol =>
      let total := acc.totalVolume + vol
      let pt :=
        match acc.primaryTicker with
        | none => some tick
        | some p =>
          match p.volCurrency24h with
          | some pvol => if pvol < vol then some tick else some p
          | none => some p
      { totalVolume := total, primaryTicker := pt }

/-- The accumulated volume and primary ticker of one base currency
(the forEach of script.js lines 124-133). -/
def baseAcc (tm : String → Option RawTicker) (instIds : List String) : TickAcc :=
  instIds.foldl (stepTick tm) { totalVolume := 0, primaryTicker := none }

/-- One base currency of the aggregation loop (script.js lines 120-168).
The running state is the aggregated list and the maximum volume; note that
the source updates `maxVolume` before the price-validity checks, so a base
can raise the maximum and still contribute no record. -/
def aggStep (tm : String → Option RawTicker) (st : List AggRecord × ℚ)
    (b : String × List String) : List AggRecord × ℚ :=
  match (baseAcc tm b.2).primaryTicker with
  | none => st
  | some pt =>
    if (baseAcc tm b.2).totalVolume ≤ 0 then st
    else
      match aggrFromTicker b.1 (baseAcc tm b.2).totalVolume pt with
      | none => (st.1, max st.2 (baseAcc tm b.2).totalVolume)
      | some r => (st.1 ++ [r], max st.2 (baseAcc tm b.2).totalVolume)

/-- The aggregation loop over all base currencies, returning the aggregated
records together with the observed maximum volume. -/
def scriptAggPair (tm : String → Option RawTicker)
    (bases : List (String × List String)) : List AggRecord × ℚ :=
  bases.foldl (aggStep tm) ([], 0)

/-- The scored population of the primary pipeline (before scoring). -/
def scriptAggregated (tm : String → Option RawTicker)
    (bases : List (String × List String)) : List AggRecord :=
  (scriptAggPair tm bases).1

/-- The maximum volume tracked alongside aggregation (script.js line 136). -/
def scriptMaxVolume (tm : String → Option RawTicker)
    (bases : List (String × List String)) : ℚ :=
  (scriptAggPair tm bases).2

/-- A record carrying its momentum score (set by the forEach of
script.js lines 283-288). -/
structure ScoredRec extends AggRecord where
  momentumScore : ℚ
deriving DecidableEq, Inhabited

/-- Momentum scoring of one aggregated record (script.js lines 283-288):
`predictedAmplitude * volRatio * earlyFactor` with
`volRatio = maxVolume > 0 ? totalVolume / maxVolume : 0` and
`earlyFactor = 1 - completion / 100`. -/
def scoreOf (maxVolume : ℚ) (r : AggRecord) : ScoredRec :=
  { toAggRecord := r
    momentumScore :=
      r.predictedAmplitude * (if 0 < maxVolume then r.totalVolume / maxVolume else 0) *
        (1 - r.completion / 100) }

/-- The scored population of the primary pipeline. -/
def scriptScored (tm : String → Option RawTicker)
    (bases : List (String × List String)) : List ScoredRec :=
  (scriptAggregated tm bases).map (scoreOf (scriptMaxVolume tm bases))

/-- Stable insertion by a rational key, descending: the inserted element goes
before the first element whose key is not larger, so earlier input elements
stay before later ones of equal key.  This is the denotation of the source
`array.sort((a, b) => b.key - a.key)`, which ECMAScript specifies to be a
stable sort. -/
def insertByKeyDesc {α : Type} (key : α → ℚ) (x : α) : List α → List α
  | [] => [x]
  | y :: ys => if key y ≤ key x then x :: y :: ys else y :: insertByKeyDesc key x ys

/-- Stable sort by a rational key, descending. -/
def sortByKeyDesc {α : Type} (key : α → ℚ) : List α → List α
  | [] => []
  | x :: xs => insertByKeyDesc key x (sortByKeyDesc key xs)

/-- The sorted scored population (script.js line 290). -/
def scriptSorted (tm : String → Option RawTicker)
    (bases : List (String × List String)) : List ScoredRec :=
  sortByKeyDesc (fun t => t.momentumScore) (scriptScored tm bases)

/-- JavaScript `Math.round`: round half toward positive infinity. -/
def jsRound (q : ℚ) : ℤ := ⌊q + 1 / 2⌋

/-- `Math.max(1, Math.round(n * 0.1))` of script.js line 292. -/
def highlightCountOf (n : ℕ) : ℕ := (max 1 (jsRound ((n : ℚ) * (1 / 10)))).toNat

/-- The highlight count of the primary pipeline, computed from the population
size. -/
def scriptHighlightCount (tm : String → Option RawTicker)
    (bases : List (String × List String)) : ℕ :=
  highlightCountOf (scriptAggregated tm bases).length

/-- A scored record together with its highlight flag (set by the forEach of
script.js lines 293-295). -/
structure HighToken where
  tok : ScoredRec
  highlight : Bool
deriving DecidableEq, Inhabited

/-- `forEach((token, index) => token.highlight = index < highlightCount)`:
walks the list with a running index. -/
def markHighlights (c : ℕ) : ℕ → List ScoredRec → List HighToken
  | _, [] => []
  | i, t :: ts => { tok := t, highlight := decide (i < c) } :: markHighlights c (i + 1) ts

/-- The ranked, highlighted output sequence of the primary pipeline. -/
def scriptRanked (tm : String → Option RawTicker)
    (bases : List (String × List String)) : List HighToken :=
  markHighlights (scriptHighlightCount tm bases) 0 (scriptSorted tm bases)

/-- A BloFin instrument descriptor (the fields the source reads). -/
structure Instrument where
  instType : String
  state : String
  baseCurrency : String
  instId : String
deriving DecidableEq, Inhabited

/-- `instruments.filter(inst => inst.instType === "SWAP" && inst.state === "live")`. -/
def swapLive (instruments : List Instrument) : List Instrument :=
  instruments.filter (fun inst => inst.instType == "SWAP" && inst.state == "live")

/-- Stable base currencies excluded from aggregation (script.js lines 69-83). -/
def stableBases : List String :=
  ["USDT", "USDC", "USD", "BUSD", "DAI", "TUSD", "PAX", "USDP", "USDK", "USDD",
   "EUR", "JPY", "GBP"]

/-- Appends an instrument id under its base currency, keeping first-insertion
key order as a JS object with string keys does. -/
def insertInst (acc : List (String × List String)) (base instId : String) :
    List (String × List String) :=
  match acc with
  | [] => [(base, [instId])]
  | (b, ids) :: rest =>
    if b == base then (b, ids ++ [instId]) :: rest
    else (b, ids) :: insertInst rest base instId

/-- Groups instrument ids by base currency, dropping empty and stable bases
(script.js lines 85-91). -/
def groupByBase (instruments : List Instrument) : List (String × List String) :=
  instruments.foldl
    (fun acc inst =>
      if inst.baseCurrency == "" || stableBases.contains inst.baseCurrency then acc
      else insertInst acc inst.baseCurrency inst.instId)
    []

/-- Control-flow outcome of one primary run of `fetchData`. -/
inductive RunOutcome where
  | noInstruments
  | fallbackRun
  | primaryRun (toks : List HighToken)
deriving DecidableEq, Inhabited

/-- The dispatch structure of `fetchData` (script.js lines 92-97 and 174):
an empty base-currency set returns early with a status message, an empty
aggregated population runs the fallback, otherwise the primary result is
ranked and shown. -/
def scriptDispatch (tm : String → Option RawTicker) (instruments : List Instrument) :
    RunOutcome :=
  if groupByBase (swapLive instruments) = [] then RunOutcome.noInstruments
  else if scriptAggregated tm (groupByBase (swapLive instruments)) = [] then
    RunOutcome.fallbackRun
  else RunOutcome.primaryRun (scriptRanked tm (groupByBase (swapLive instruments)))

/-- A JSON field value as the fallback code discriminates it: absent
(`undefined`), `null`, or a finite number.  JSON cannot carry NaN, so raw
fields never are; NaN only arises from arithmetic and is modelled by `Option`
results downstream. -/
inductive JVal where
  | undef
  | null
  | num (q : ℚ)
deriving DecidableEq, Inhabited

/-- JavaScript truthiness of a field value. -/
def jvTruthy : JVal → Bool
  | JVal.num q => decide (q ≠ 0)
  | _ => false

/-- JavaScript `a || b`. -/
def jsOrV (a b : JVal) : JVal := if jvTruthy a then a else b

/-- JavaScript ToNumber on a field value, with `none` = NaN
(`undefined` coerces to NaN, `null` to 0). -/
def jvToNumCoe : JVal → Option ℚ
  | JVal.undef => none
  | JVal.null => some 0
  | JVal.num q => some q

/-- The numeric value of a field, with a default for the non-number cases
(used after a `|| 0` where the result is known to be a number). -/
def jvNumD (v : JVal) (d : ℚ) : ℚ :=
  match v with
  | JVal.num q => q
  | _ => d

/-- JavaScript `v >= 0`: ToNumber then compare, false on NaN. -/
def jvGE0 (v : JVal) : Bool :=
  match jvToNumCoe v with
  | some q => decide (0 ≤ q)
  | none => false

/-- JavaScript subtraction of two field values, `none` = NaN. -/
def jvSub (a b : JVal) : Option ℚ :=
  match jvToNumCoe a, jvToNumCoe b with
  | some x, some y => some (x - y)
  | _, _ => none

/-- A CoinGecko market record as read by the fallback (script.js
lines 206-247).  `symbol` and `image` are `none` when absent. -/
structure MarketInfo where
  id : String
  name : String
  symbol : Option String
  image : Option String
  current_price : JVal
  total_volume : JVal
  total_volume_usd : JVal
  high_24h : JVal
  low_24h : JVal
  price_change_percentage_24h_in_currency : JVal
  price_change_percentage_24h : JVal
  price_change_percentage_1h_in_currency : JVal
  price_change_percentage_1h : JVal
deriving DecidableEq, Inhabited

/-- Character-wise lower casing, the model of `String.prototype.toLowerCase`. -/
def jsToLower (s : String) : String := s.map Char.toLower

/-- Character-wise upper casing, the model of `String.prototype.toUpperCase`. -/
def jsToUpper (s : String) : String := s.map Char.toUpper

/-- Stable symbols excluded by the fallback (script.js lines 188-202). -/
def stableSymbols : List String :=
  ["usdt", "usdc", "usd", "busd", "dai", "tusd", "pax", "usdp", "usdk", "usdd",
   "eur", "jpy", "gbp"]

/-- A fallback record as pushed by script.js lines 237-247.  `completion` is
`none` when the JavaScript value would be NaN (possible because
`Math.min`/`Math.max` propagate NaN through the clamp). -/
structure FallbackRec where
  name : String
  symbol : String
  image : String
  category : Category
  completion : Option ℚ
  current_price : JVal
  totalVolume : ℚ
  priceChange24 : ℚ
  amplitude : ℚ
deriving DecidableEq, Inhabited

/-- `info.symbol ? info.symbol.toLowerCase() : ""` of script.js line 207. -/
def fbSymbolLower (info : MarketInfo) : String :=
  match info.symbol with
  | some s => if s = "" then "" else jsToLower s
  | none => ""

/-- `info.total_volume || info.total_volume_usd || 0` of script.js line 209. -/
def fbTotalVolume (info : MarketInfo) : ℚ :=
  jvNumD (jsOrV (jsOrV info.total_volume info.total_volume_usd) (JVal.num 0)) 0

/-- The 24h change field with the `_in_currency` variant preferred when not
`undefined` (script.js lines 215-217). -/
def fbPriceChange24 (info : MarketInfo) : JVal :=
  if info.price_change_percentage_24h_in_currency ≠ JVal.undef then
    info.price_change_percentage_24h_in_currency
  else info.price_change_percentage_24h

/-- `priceChange24 >= 0 ? "pumping" : "dumping"` of script.js line 219, under
JavaScript comparison semantics on the raw field. -/
def fbCategory (info : MarketInfo) : Category :=
  if jvGE0 (fbPriceChange24 info) then Category.pumping else Category.dumping

/-- `high24 !== null && low24 !== null ? high24 - low24 : 0` of script.js
line 221; `none` is the NaN produced when an operand is `undefined`. -/
def fbAmplitude (info : MarketInfo) : Option ℚ :=
  if info.high_24h ≠ JVal.null ∧ info.low_24h ≠ JVal.null then
    jvSub info.high_24h info.low_24h
  else some 0

/-- The 1h proxy of script.js lines 224-231: the absolute 1h change when one
of the 1h fields is present, else `Math.abs(priceChange24) / 24`, which is
NaN (`none`) when the 24h change is `undefined` too. -/
def fbPriceChange1h (info : MarketInfo) : Option ℚ :=
  if info.price_change_percentage_1h_in_currency ≠ JVal.undef then
    (jvToNumCoe info.price_change_percentage_1h_in_currency).map (fun q => |q|)
  else if info.price_change_percentage_1h ≠ JVal.undef then
    (jvToNumCoe info.price_change_percentage_1h).map (fun q => |q|)
  else
    (jvToNumCoe (fbPriceChange24 info)).map (fun q => |q| / 24)

/-- `Math.abs(priceChange24 || 1e-6)` of script.js line 235. -/
def fbDenom (info : MarketInfo) : ℚ :=
  match fbPriceChange24 info with
  | JVal.num q => if q = 0 then 1 / 1000000 else |q|
  | _ => 1 / 1000000

/-- The clamped completion of script.js lines 233-236; NaN (`none`)
propagates through `Math.min`/`Math.max`. -/
def fbCompletion (info : MarketInfo) : Option ℚ :=
  (fbPriceChange1h info).map (fun p => max 0 (min 100 (p / fbDenom info * 100)))

/-- The record pushed by script.js lines 237-247, given the positive
amplitude `a`. -/
def fbRecordOf (info : MarketInfo) (a : ℚ) : FallbackRec :=
  { name := info.name
    symbol :=
      match info.symbol with
      | some s => if s = "" then info.id else jsToUpper s
      | none => info.id
    image := info.image.getD ""
    category := fbCategory info
    completion := fbCompletion info
    current_price := info.current_price
    totalVolume := fbTotalVolume info
    priceChange24 := jvNumD (jsOrV (fbPriceChange24 info) (JVal.num 0)) 0
    amplitude := a }

/-- One CoinGecko record of the fallback loop (script.js lines 206-248):
stablecoins and non-positive volumes are skipped, `maxVol` is updated before
the amplitude check, and a record is pushed only for a positive numeric
amplitude. -/
def fallbackStep (st : List FallbackRec × ℚ) (info : MarketInfo) :
    List FallbackRec × ℚ :=
  if stableSymbols.contains (fbSymbolLower info) then st
  else if fbTotalVolume info ≤ 0 then st
  else
    match fbAmplitude info with
    | none => (st.1, max st.2 (fbTotalVolume info))
    | some a =>
      if a ≤ 0 then (st.1, max st.2 (fbTotalVolume info))
      else (st.1 ++ [fbRecordOf info a], max st.2 (fbTotalVolume info))

/-- The whole fallback aggregation loop (script.js lines 204-248). -/
def fallbackAggregate (markets : List MarketInfo) : List FallbackRec × ℚ :=
  markets.foldl fallbackStep ([], 0)

/-- A CoinGecko market record as read by the part_001 variant. -/
structure CGToken where
  id : String
  name : String
  symbol : String
  image : String
  total_volume : JVal
  market_cap : JVal
  price_change_percentage_24h : JVal
deriving DecidableEq, Inhabited

/-- The momentum score of the part_001 variant (lines 133-143):
`priceChange * volumeRatio` with `priceChange` defaulting to 0 when the 24h
change is not a number and `volumeRatio = total_volume / market_cap` when the
market cap is truthy and positive, else 0.  The result is `none` (NaN) when
the volume is `undefined` while the market cap is positive. -/
def part001Score (t : CGToken) : Option ℚ :=
  let priceChange : ℚ :=
    match t.price_change_percentage_24h with
    | JVal.num q => q
    | _ => 0
  let volumeRatioOpt : Option ℚ :=
    match t.market_cap with
    | JVal.num m => if 0 < m then (jvToNumCoe t.total_volume).map (fun v => v / m) else some 0
    | _ => some 0
  volumeRatioOpt.map (fun vr => priceChange * vr)

/-- JavaScript `v > 0` on a field value, false on NaN. -/
def jvGT0 (v : JVal) : Bool :=
  match jvToNumCoe v with
  | some q => decide (0 < q)
  | none => false

/-- The filter of part_001 lines 145-148: positive volume and a positive
numeric score (in JS `typeof score === "number"` is always true after the
assignment, and `NaN > 0` is false). -/
def part001Filtered (data : List CGToken) : List CGToken :=
  data.filter (fun t =>
    jvGT0 t.total_volume &&
      (match part001Score t with
        | some s => decide (0 < s)
        | none => false))

/-- The ranked top-100 output of the part_001 variant (lines 150-152):
stable sort descending by score, then `slice(0, 100)`. -/
def part001TopTokens (data : List CGToken) : List CGToken :=
  (sortByKeyDesc (fun t => (part001Score t).getD 0) (part001Filtered data)).take 100

/-- A displayed token as the search filter reads it. -/
structure DisplayToken where
  name : String
  symbol : String
deriving DecidableEq, Inhabited

/-- Case-insensitive substring test, the model of `a.includes(b)` after the
lower-casing the source performs on `a`. -/
def containsSub (s pat : String) : Bool := decide (pat.data <:+: s.data)

/-- `filterTokens` of script.js lines 463-474: trim and lower-case the query;
an empty query yields the full population, otherwise keep the tokens whose
lower-cased name or symbol contains the query. -/
def filterTokens (toks : List DisplayToken) (searchValue : String) : List DisplayToken :=
  let query := jsToLower searchValue.trim
  if query = "" then toks
  else
    toks.filter (fun token =>
      containsSub (jsToLower token.name) query || containsSub (jsToLower token.symbol) query)

/-- Modelled from the spec of claim C3: the momentum formula as the claim
words it, with the volume share taken against the maximum volume of the
scored population itself (0 when that maximum is 0) and the 24h change
magnitude as the middle factor.  Used only to compare against the code. -/
def specPopMaxVolume (pop : List ScoredRec) : ℚ :=
  pop.foldl (fun m t => max m t.totalVolume) 0

/-- Modelled from the spec of claim C3 (see `specPopMaxVolume`): the claimed
score of a record relative to a population. -/
def specMomentumScore (pop : List ScoredRec) (r : ScoredRec) : ℚ :=
  (if specPopMaxVolume pop = 0 then 0 else r.totalVolume / specPopMaxVolume pop) *
    |r.priceChange24| * (1 - r.completion / 100)

/-- A well-formed ticker used by concrete evaluations: volume 100, last 110,
open 100, high 120, low 90. -/
def tick0 : RawTicker :=
  { instId := "I0", volCurrency24h := some 100, last := some 110,
    open24h := some 100, high24h := some 120, low24h := some 90 }

/-- Ticker map with the single instrument `I0`. -/
def tm1 : String → Option RawTicker :=
  fun s => if s == "I0" then some tick0 else none

/-- A single base currency owning instrument `I0`. -/
def bases1 : List (String × List String) := [("AAA", ["I0"])]

/-- High-volume ticker whose open price is 0, hence excluded from scoring
after having raised the maximum volume. -/
def tickA : RawTicker :=
  { instId := "IA", volCurrency24h := some 1000, last := some 5,
    open24h := some 0, high24h := some 6, low24h := some 4 }

/-- Low-volume well-formed ticker for the C3 counterexample. -/
def tickB : RawTicker :=
  { instId := "IB", volCurrency24h := some 100, last := some 110,
    open24h := some 100, high24h := some 120, low24h := some 90 }

/-- Ticker map for the C3 counterexample. -/
def tmC3 : String → Option RawTicker :=
  fun s => if s == "IA" then some tickA else if s == "IB" then some tickB else none

/-- Two bases: one volume-rich but price-invalid, one scored. -/
def basesC3 : List (String × List String) := [("AC", ["IA"]), ("BC", ["IB"])]

/-- Ticker with a 24h change of exactly zero (last = open). -/
def tickZ : RawTicker :=
  { instId := "IZ", volCurrency24h := some 50, last := some 100,
    open24h := some 100, high24h := some 120, low24h := some 90 }

/-- Ticker map for the C2 counterexample. -/
def tmC2 : String → Option RawTicker :=
  fun s => if s == "IZ" then some tickZ else none

/-- A single base currency owning instrument `IZ`. -/
def basesC2 : List (String × List String) := [("ZED", ["IZ"])]

/-- Fallback market record whose 1h change is +5 while its 24h change is -10:
the short-horizon sign and the 24h sign disagree. -/
def infoC2 : MarketInfo :=
  { id := "c2", name := "CTwo", symbol := some "zzz", image := none,
    current_price := JVal.num 1, total_volume := JVal.num 5,
    total_volume_usd := JVal.undef, high_24h := JVal.num 3, low_24h := JVal.num 1,
    price_change_percentage_24h_in_currency := JVal.num (-10),
    price_change_percentage_24h := JVal.undef,
    price_change_percentage_1h_in_currency := JVal.num 5,
    price_change_percentage_1h := JVal.undef }

/-- Fallback market record with both 24h change fields absent but a 1h field
present: the raw 24h field is `undefined`, so the category is `dumping`
(JS `undefined >= 0` is false) while the stored `priceChange24` defaults
to 0. -/
def infoU : MarketInfo :=
  { id := "u", name := "UCoin", symbol := some "uuu", image := none,
    current_price := JVal.num 1, total_volume := JVal.num 5,
    total_volume_usd := JVal.undef, high_24h := JVal.num 3, low_24h := JVal.num 1,
    price_change_percentage_24h_in_currency := JVal.undef,
    price_change_percentage_24h := JVal.undef,
    price_change_percentage_1h_in_currency := JVal.num 5,
    price_change_percentage_1h := JVal.undef }

/-- Ordinary fallback market record used by witnesses. -/
def infoF : MarketInfo :=
  { id := "wf", name := "WitnessCoin", symbol := some "wit", image := some "img",
    current_price := JVal.num 2, total_volume := JVal.num 40,
    total_volume_usd := JVal.undef, high_24h := JVal.num 5, low_24h := JVal.num 1,
    price_change_percentage_24h_in_currency := JVal.num 20,
    price_change_percentage_24h := JVal.undef,
    price_change_percentage_1h_in_currency := JVal.num 4,
    price_change_percentage_1h := JVal.undef }

/-- Fallback market record with every change-percentage field absent: the 1h
proxy becomes `Math.abs(undefined) / 24`, i.e. NaN. -/
def infoNaN : MarketInfo :=
  { id := "x", name := "NoChangeData", symbol := some "abc", image := none,
    current_price := JVal.num (3 / 2), total_volume := JVal.num 5,
    total_volume_usd := JVal.undef, high_24h := JVal.num 2, low_24h := JVal.num 1,
    price_change_percentage_24h_in_currency := JVal.undef,
    price_change_percentage_24h := JVal.undef,
    price_change_percentage_1h_in_currency := JVal.undef,
    price_change_percentage_1h := JVal.undef }

/-- Ticker map sending every instrument id to `tick0`. -/
def tmMany : String → Option RawTicker := fun _ => some tick0

/-- 101 distinct base currencies, all owning an instrument mapped to `tick0`. -/
def basesC7 : List (String × List String) :=
  (List.range 101).map (fun i => ("B" ++ toString i, ["X"]))

/-- 10 distinct base currencies, all owning an instrument mapped to `tick0`. -/
def basesW : List (String × List String) :=
  (List.range 10).map (fun i => ("W" ++ toString i, ["X"]))

/-- Invariants holding for every record the primary aggregation emits:
nonzero prices, the 24h-change equation, a positive amplitude, a clamped
completion, and the category law. -/
def AggInv (r : AggRecord) : Prop :=
  r.open24 ≠ 0 ∧ r.last ≠ 0 ∧
  r.priceChange24 = (r.last - r.open24) / r.open24 * 100 ∧
  0 < r.predictedAmplitude ∧
  0 ≤ r.completion ∧ r.completion ≤ 100 ∧
  (r.category = Category.pumping ↔ 0 ≤ r.priceChange24) ∧
  (r.category = Category.dumping ↔ r.priceChange24 < 0) ∧
  r.category ≠ Category.neutral

/-- Invariants holding for every record the fallback aggregation emits. -/
def FbInv (r : FallbackRec) : Prop :=
  0 < r.amplitude ∧ r.category ≠ Category.neutral

set_option maxRecDepth 400000

theorem mem_insertByKeyDesc {α : Type} (key : α → ℚ) (x a : α) :
    ∀ l : List α, a ∈ insertByKeyDesc key x l ↔ a = x ∨ a ∈ l
  | [] => by simp [insertByKeyDesc]
  | y :: ys => by
    rw [insertByKeyDesc]
    by_cases hc : key y ≤ key x
    · rw [if_pos hc]
      simp [List.mem_cons]
    · rw [if_neg hc]
      simp only [List.mem_cons, mem_insertByKeyDesc key x a ys]
      tauto

theorem length_insertByKeyDesc {α : Type} (key : α → ℚ) (x : α) :
    ∀ l : List α, (insertByKeyDesc key x l).length = l.length + 1
  | [] => rfl
  | y :: ys => by
    rw [insertByKeyDesc]
    by_cases hc : key y ≤ key x
    · rw [if_pos hc]
      rfl
    · rw [if_neg hc]
      simp [length_insertByKeyDesc key x ys]

theorem length_sortByKeyDesc {α : Type} (key : α → ℚ) :
    ∀ l : List α, (sortByKeyDesc key l).length = l.length
  | [] => rfl
  | x :: xs => by
    rw [sortByKeyDesc, length_insertByKeyDesc, length_sortByKeyDesc key xs, List.length_cons]

theorem mem_sortByKeyDesc {α : Type} (key : α → ℚ) (a : α) :
    ∀ l : List α, a ∈ sortByKeyDesc key l ↔ a ∈ l
  | [] => Iff.rfl
  | x :: xs => by
    rw [sortByKeyDesc, mem_insertByKeyDesc, mem_sortByKeyDesc key a xs, List.mem_cons]

theorem pairwise_insertByKeyDesc {α : Type} (key : α → ℚ) (x : α) :
    ∀ l : List α, List.Pairwise (fun a b => key b ≤ key a) l →
      List.Pairwise (fun a b => key b ≤ key a) (insertByKeyDesc key x l)
  | [], _ => List.pairwise_singleton _ x
  | y :: ys, h => by
    rcases List.pairwise_cons.mp h with ⟨hy, hys⟩
    rw [insertByKeyDesc]
    by_cases hc : key y ≤ key x
    · rw [if_pos hc]
      refine List.pairwise_cons.mpr ⟨?_, h⟩
      intro b hb
      rcases List.mem_cons.mp hb with rfl | hb
      · exact hc
      · exact (hy b hb).trans hc
    · rw [if_neg hc]
      refine List.pairwise_cons.mpr ⟨?_, pairwise_insertByKeyDesc key x ys hys⟩
      intro b hb
      rcases (mem_insertByKeyDesc key x b ys).mp hb with rfl | hb
      · exact le_of_not_le hc
      · exact hy b hb

theorem pairwise_sortByKeyDesc {α : Type} (key : α → ℚ) :
    ∀ l : List α, List.Pairwise (fun a b => key b ≤ key a) (sortByKeyDesc key l)
  | [] => List.Pairwise.nil
  | x :: xs => pairwise_insertByKeyDesc key x _ (pairwise_sortByKeyDesc key xs)

theorem filter_insertByKeyDesc_eq {α : Type} (key : α → ℚ) (x : α) (q : ℚ)
    (hx : key x = q) :
    ∀ l : List α, (insertByKeyDesc key x l).filter (fun t => decide (key t = q)) =
      x :: l.filter (fun t => decide (key t = q))
  | [] => by simp [insertByKeyDesc, hx]
  | y :: ys => by
    rw [insertByKeyDesc]
    by_cases hc : key y ≤ key x
    · rw [if_pos hc]
      simp [List.filter_cons, hx]
    · rw [if_neg hc]
      have hy : ¬ key y = q := by
        intro h
        exact hc (by rw [hx, ← h])
      simp [List.filter_cons, hy, filter_insertByKeyDesc_eq key x q hx ys]

theorem filter_insertByKeyDesc_ne {α : Type} (key : α → ℚ) (x : α) (q : ℚ)
    (hx : ¬ key x = q) :
    ∀ l : List α, (insertByKeyDesc key x l).filter (fun t => decide (key t = q)) =
      l.filter (fun t => decide (key t = q))
  | [] => by simp [insertByKeyDesc, hx]
  | y :: ys => by
    rw [insertByKeyDesc]
    by_cases hc : key y ≤ key x
    · rw [if_pos hc]
      simp [List.filter_cons, hx]
    · rw [if_neg hc]
      simp [List.filter_cons, filter_insertByKeyDesc_ne key x q hx ys]

theorem filter_sortByKeyDesc {α : Type} (key : α → ℚ) (q : ℚ) :
    ∀ l : List α, (sortByKeyDesc key l).filter (fun t => decide (key t = q)) =
      l.filter (fun t => decide (key t = q))
  | [] => rfl
  | x :: xs => by
    rw [sortByKeyDesc]
    by_cases hx : key x = q
    · rw [filter_insertByKeyDesc_eq key x q hx, filter_sortByKeyDesc key q xs]
      simp [List.filter_cons, hx]
    · rw [filter_insertByKeyDesc_ne key x q hx, filter_sortByKeyDesc key q xs]
      simp [List.filter_cons, hx]

theorem length_markHighlights (c : ℕ) :
    ∀ (i : ℕ) (l : List ScoredRec), (markHighlights c i l).length = l.length
  | _, [] => rfl
  | i, _ :: ts => by
    rw [markHighlights, List.length_cons, List.length_cons,
      length_markHighlights c (i + 1) ts]

theorem tok_mem_markHighlights (c : ℕ) :
    ∀ (i : ℕ) (l : List ScoredRec) (h : HighToken),
      h ∈ markHighlights c i l → h.tok ∈ l
  | _, [], _, hh => by simp [markHighlights] at hh
  | i, t :: ts, h, hh => by
    rw [markHighlights, List.mem_cons] at hh
    rcases hh with rfl | hh
    · exact List.mem_cons_self t ts
    · exact List.mem_cons_of_mem t (tok_mem_markHighlights c (i + 1) ts h hh)

theorem mem_take_markHighlights (c : ℕ) :
    ∀ (i : ℕ) (l : List ScoredRec) (h : HighToken),
      h ∈ (markHighlights c i l).take (c - i) → h.highlight = true
  | i, [], h, hh => by simp [markHighlights] at hh
  | i, t :: ts, h, hh => by
    by_cases hc : i < c
    · rw [markHighlights] at hh
      rcases Nat.exists_eq_add_of_lt hc with ⟨k, hk⟩
      have hsub : c - i = k + 1 := by omega
      rw [hsub, List.take_succ_cons, List.mem_cons] at hh
      rcases hh with rfl | hh
      · simp [hc]
      · have hsub2 : c - (i + 1) = k := by omega
        exact mem_take_markHighlights c (i + 1) ts h (by rwa [hsub2])
    · have hsub : c - i = 0 := by omega
      rw [hsub] at hh
      simp at hh

theorem mem_drop_markHighlights (c : ℕ) :
    ∀ (i : ℕ) (l : List ScoredRec) (h : HighToken),
      h ∈ (markHighlights c i l).drop (c - i) → h.highlight = false
  | i, [], h, hh => by simp [markHighlights] at hh
  | i, t :: ts, h, hh => by
    by_cases hc : i < c
    · rw [markHighlights] at hh
      rcases Nat.exists_eq_add_of_lt hc with ⟨k, hk⟩
      have hsub : c - i = k + 1 := by omega
      rw [hsub, List.drop_succ_cons] at hh
      have hsub2 : c - (i + 1) = k := by omega
      exact mem_drop_markHighlights c (i + 1) ts h (by rwa [hsub2])
    · have hsub : c - i = 0 := by omega
      rw [hsub, List.drop_zero, markHighlights, List.mem_cons] at hh
      rcases hh with rfl | hh
      · simp [hc]
      · have hsub2 : c - (i + 1) = 0 := by omega
        exact mem_drop_markHighlights c (i + 1) ts h
          (by rw [hsub2, List.drop_zero]; exact hh)

theorem count_markHighlights (c : ℕ) :
    ∀ (i : ℕ) (l : List ScoredRec),
      ((markHighlights c i l).filter (fun h => h.highlight)).length =
        min l.length (c - i)
  | _, [] => by simp [markHighlights]
  | i, t :: ts => by
    rw [markHighlights]
    by_cases hc : i < c
    · simp only [List.filter_cons]
      simp [hc, count_markHighlights c (i + 1) ts]
      omega
    · simp only [List.filter_cons]
      simp [hc, count_markHighlights c (i + 1) ts]
      omega

theorem truthyNum_ne_zero {v : Option ℚ} {q : ℚ} (h : truthyNum v = some q) : q ≠ 0 := by
  rcases v with _ | x
  · simp [truthyNum] at h
  · by_cases hx : x = 0
    · simp [truthyNum, hx] at h
    · simp only [truthyNum, if_neg hx, Option.some.injEq] at h
      subst h
      exact hx

theorem categoryOf_pumping_iff (pc : ℚ) : categoryOf pc = Category.pumping ↔ 0 ≤ pc := by
  unfold categoryOf
  by_cases h : 0 ≤ pc <;> simp [h]

theorem categoryOf_dumping_iff (pc : ℚ) : categoryOf pc = Category.dumping ↔ pc < 0 := by
  unfold categoryOf
  by_cases h : 0 ≤ pc <;> simp [h, not_le.mp, lt_iff_not_le]

theorem categoryOf_ne_neutral (pc : ℚ) : categoryOf pc ≠ Category.neutral := by
  unfold categoryOf
  by_cases h : 0 ≤ pc <;> simp [h]

theorem completionOf_nonneg (last open24 amp : ℚ) : 0 ≤ completionOf last open24 amp :=
  le_max_left 0 _

theorem completionOf_le_100 (last open24 amp : ℚ) : completionOf last open24 amp ≤ 100 :=
  max_le (by norm_num) (min_le_left 100 _)

theorem aggrFromTicker_inv {base : String} {v : ℚ} {pt : RawTicker} {r : AggRecord}
    (h : aggrFromTicker base v pt = some r) : AggInv r := by
  unfold aggrFromTicker at h
  split at h
  case _ last open24 high24 low24 hlast hopen hhigh hlow =>
    split at h
    · exact absurd h (by simp)
    case _ hamp =>
      injection h with h
      subst h
      refine ⟨truthyNum_ne_zero hopen, truthyNum_ne_zero hlast, rfl,
        lt_of_not_le hamp, completionOf_nonneg _ _ _, completionOf_le_100 _ _ _,
        categoryOf_pumping_iff _, categoryOf_dumping_iff _, categoryOf_ne_neutral _⟩
  case _ => exact absurd h (by simp)

theorem aggStep_inv (tm : String → Option RawTicker) (st : List AggRecord × ℚ)
    (b : String × List String) (hst : ∀ r ∈ st.1, AggInv r) :
    ∀ r ∈ (aggStep tm st b).1, AggInv r := by
  unfold aggStep
  split
  · exact hst
  · split
    · exact hst
    · split
      · exact hst
      case _ r0 heq =>
        intro x hx
        rcases List.mem_append.mp hx with hx | hx
        · exact hst x hx
        · rcases List.mem_singleton.mp hx with rfl
          exact aggrFromTicker_inv heq

theorem foldl_aggStep_inv (tm : String → Option RawTicker) :
    ∀ (bases : List (String × List String)) (st : List AggRecord × ℚ),
      (∀ r ∈ st.1, AggInv r) → ∀ r ∈ (bases.foldl (aggStep tm) st).1, AggInv r
  | [], st, hst => by simpa using hst
  | b :: bs, st, hst => by
    rw [List.foldl_cons]
    exact foldl_aggStep_inv tm bs _ (aggStep_inv tm st b hst)

theorem mem_scriptAggregated_inv (tm : String → Option RawTicker)
    (bases : List (String × List String)) (r : AggRecord)
    (hr : r ∈ scriptAggregated tm bases) : AggInv r :=
  foldl_aggStep_inv tm bases ([], 0) (by simp) r hr

theorem fbCategory_ne_neutral (info : MarketInfo) : fbCategory info ≠ Category.neutral := by
  unfold fbCategory
  by_cases h : jvGE0 (fbPriceChange24 info) = true <;> simp [h]

theorem fallbackStep_inv (st : List FallbackRec × ℚ) (info : MarketInfo)
    (hst : ∀ r ∈ st.1, FbInv r) : ∀ r ∈ (fallbackStep st info).1, FbInv r := by
  unfold fallbackStep
  split
  · exact hst
  · split
    · exact hst
    · split
      · exact hst
      case _ a heq =>
        split
        · exact hst
        case _ ha =>
          intro x hx
          rcases List.mem_append.mp hx with hx | hx
          · exact hst x hx
          · rcases List.mem_singleton.mp hx with rfl
            exact ⟨lt_of_not_le ha, fbCategory_ne_neutral info⟩

theorem foldl_fallbackStep_inv :
    ∀ (markets : List MarketInfo) (st : List FallbackRec × ℚ),
      (∀ r ∈ st.1, FbInv r) → ∀ r ∈ (markets.foldl fallbackStep st).1, FbInv r
  | [], st, hst => by simpa using hst
  | m :: ms, st, hst => by
    rw [List.foldl_cons]
    exact foldl_fallbackStep_inv ms _ (fallbackStep_inv st m hst)

theorem mem_fallbackAggregate_inv (markets : List MarketInfo) (r : FallbackRec)
    (hr : r ∈ (fallbackAggregate markets).1) : FbInv r :=
  foldl_fallbackStep_inv markets ([], 0) (by simp) r hr

theorem length_scriptScored (tm : String → Option RawTicker)
    (bases : List (String × List String)) :
    (scriptScored tm bases).length = (scriptAggregated tm bases).length :=
  List.length_map _ _

theorem length_scriptSorted (tm : String → Option RawTicker)
    (bases : List (String × List String)) :
    (scriptSorted tm bases).length = (scriptAggregated tm bases).length :=
  (length_sortByKeyDesc _ _).trans (length_scriptScored tm bases)

theorem length_scriptRanked (tm : String → Option RawTicker)
    (bases : List (String × List String)) :
    (scriptRanked tm bases).length = (scriptAggregated tm bases).length :=
  (length_markHighlights _ _ _).trans (length_scriptSorted tm bases)

theorem highlightCountOf_le {n : ℕ} (hn : 1 ≤ n) : highlightCountOf n ≤ n := by
  unfold highlightCountOf jsRound
  rw [Int.toNat_le]
  refine max_le (by exact_mod_cast hn) ?_
  have hlt : ⌊(n : ℚ) * (1 / 10) + 1 / 2⌋ < (n : ℤ) + 1 := by
    rw [Int.floor_lt]
    push_cast
    have h0 : (0 : ℚ) ≤ (n : ℚ) := Nat.cast_nonneg n
    linarith
  omega

theorem one_le_highlightCountOf (n : ℕ) : 1 ≤ highlightCountOf n := by
  unfold highlightCountOf
  have h1 : (1 : ℤ) ≤ max 1 (jsRound ((n : ℚ) * (1 / 10))) := le_max_left 1 _
  omega

/-- C1 (corrected): the fallback runs iff the base-currency set is nonempty
and the primary scored population is empty.  When the instruments adapter
yields no base currencies the run returns early with a status message and the
fallback is never consulted; when at least one scored record exists (whatever
its score) the fallback is never consulted either. -/
theorem c1_fallback_iff (tm : String → Option RawTicker) (instruments : List Instrument) :
    scriptDispatch tm instruments = RunOutcome.fallbackRun ↔
      (groupByBase (swapLive instruments) ≠ [] ∧
        scriptAggregated tm (groupByBase (swapLive instruments)) = []) := by
  unfold scriptDispatch
  by_cases h1 : groupByBase (swapLive instruments) = []
  · simp [h1]
  · by_cases h2 : scriptAggregated tm (groupByBase (swapLive instruments)) = [] <;>
      simp [h1, h2]

/-- C1 counterexample: with no instruments at all (the adapter returned
nothing) the primary scored population is empty, yet the outcome is the
early no-instruments return, not the fallback. -/
theorem c1_fallback_counterexample :
    scriptDispatch (fun _ => none) [] = RunOutcome.noInstruments ∧
      scriptAggregated (fun _ => none) (groupByBase (swapLive [])) = [] ∧
      RunOutcome.noInstruments ≠ RunOutcome.fallbackRun := by
  refine ⟨by with_unfolding_all decide, by with_unfolding_all decide, by simp⟩

theorem fallbackStep_from (st : List FallbackRec × ℚ) (info : MarketInfo) :
    ∀ r ∈ (fallbackStep st info).1, r ∈ st.1 ∨ ∃ a : ℚ, r = fbRecordOf info a := by
  unfold fallbackStep
  split
  · exact fun r hr => Or.inl hr
  · split
    · exact fun r hr => Or.inl hr
    · split
      · exact fun r hr => Or.inl hr
      case _ a heq =>
        split
        · exact fun r hr => Or.inl hr
        · intro r hr
          rcases List.mem_append.mp hr with hr | hr
          · exact Or.inl hr
          · rcases List.mem_singleton.mp hr with rfl
            exact Or.inr ⟨a, rfl⟩

theorem foldl_fallbackStep_from :
    ∀ (markets : List MarketInfo) (st : List FallbackRec × ℚ) (r : FallbackRec),
      r ∈ (markets.foldl fallbackStep st).1 →
        r ∈ st.1 ∨ ∃ info ∈ markets, ∃ a : ℚ, r = fbRecordOf info a
  | [], _, _, hr => Or.inl hr
  | m :: ms, st, r, hr => by
    rw [List.foldl_cons] at hr
    rcases foldl_fallbackStep_from ms (fallbackStep st m) r hr with h | ⟨info, hi, a, ha⟩
    · rcases fallbackStep_from st m r h with h2 | ⟨a, ha⟩
      · exact Or.inl h2
      · exact Or.inr ⟨m, List.mem_cons_self m ms, a, ha⟩
    · exact Or.inr ⟨info, List.mem_cons_of_mem m hi, a, ha⟩

theorem mem_fallbackAggregate_from (markets : List MarketInfo) (r : FallbackRec)
    (hr : r ∈ (fallbackAggregate markets).1) :
    ∃ info ∈ markets, ∃ a : ℚ, r = fbRecordOf info a := by
  rcases foldl_fallbackStep_from markets ([], 0) r hr with h | h
  · simp at h
  · exact h

theorem fbCategory_pumping_iff (info : MarketInfo) :
    fbCategory info = Category.pumping ↔ jvGE0 (fbPriceChange24 info) = true := by
  unfold fbCategory
  by_cases h : jvGE0 (fbPriceChange24 info) = true <;> simp [h]

theorem fbCategory_dumping_iff (info : MarketInfo) :
    fbCategory info = Category.dumping ↔ jvGE0 (fbPriceChange24 info) = false := by
  unfold fbCategory
  by_cases h : jvGE0 (fbPriceChange24 info) = true <;> simp [h]

/-- C2 (corrected): in the primary pipeline the category is `pumping` exactly
when the 24h change is `≥ 0` and `dumping` exactly when it is `< 0`, never
`neutral`.  In the fallback, every scored record's category is `fbCategory`
of the market record that produced it: `pumping` exactly when the raw 24h
field compares `≥ 0` under JavaScript semantics (a number q gives `pumping`
iff 0 ≤ q, `null` gives `pumping`, an absent field gives `dumping`), never
`neutral`; and the two 1h fields never influence the category. -/
theorem c2_category_rule :
    (∀ (tm : String → Option RawTicker) (bases : List (String × List String))
        (r : AggRecord), r ∈ scriptAggregated tm bases →
      (r.category = Category.pumping ↔ 0 ≤ r.priceChange24) ∧
      (r.category = Category.dumping ↔ r.priceChange24 < 0) ∧
      r.category ≠ Category.neutral) ∧
    (∀ (markets : List MarketInfo) (r : FallbackRec),
      r ∈ (fallbackAggregate markets).1 →
      (∃ info ∈ markets, r.category = fbCategory info) ∧
      r.category ≠ Category.neutral) ∧
    (∀ info : MarketInfo,
      (fbCategory info = Category.pumping ↔ jvGE0 (fbPriceChange24 info) = true) ∧
      (fbCategory info = Category.dumping ↔ jvGE0 (fbPriceChange24 info) = false)) ∧
    (∀ q : ℚ, jvGE0 (JVal.num q) = decide (0 ≤ q)) ∧
    jvGE0 JVal.null = true ∧
    jvGE0 JVal.undef = false ∧
    ∀ (info : MarketInfo) (v w : JVal),
      fbCategory { info with price_change_percentage_1h_in_currency := v, price_change_percentage_1h := w } = fbCategory info := by
  refine ⟨?_, ?_, ?_, ?_, ?_, ?_, ?_⟩
  · intro tm bases r hr
    obtain ⟨-, -, -, -, -, -, hp, hd, hn⟩ := mem_scriptAggregated_inv tm bases r hr
    exact ⟨hp, hd, hn⟩
  · intro markets r hr
    refine ⟨?_, (mem_fallbackAggregate_inv markets r hr).2⟩
    rcases mem_fallbackAggregate_from markets r hr with ⟨info, hi, a, rfl⟩
    exact ⟨info, hi, rfl⟩
  · intro info
    exact ⟨fbCategory_pumping_iff info, fbCategory_dumping_iff info⟩
  · intro q
    rfl
  · with_unfolding_all decide
  · rfl
  · intro info v w
    rfl

/-- C2 counterexample: a primary record with a 24h change of exactly 0 is
categorised `pumping`, not `neutral`; a fallback record whose 1h change is +5
while its 24h change is -10 is categorised `dumping`, though the claim would
make the positive short-horizon change `pumping`; and a fallback record with
both 24h fields absent but a positive 1h field is categorised `dumping`
while its stored `priceChange24` defaults to 0. -/
theorem c2_category_counterexample :
    (scriptAggregated tmC2 basesC2).map (fun r => r.priceChange24) = [0] ∧
    (scriptAggregated tmC2 basesC2).map (fun r => r.category) = [Category.pumping] ∧
    (fallbackAggregate [infoC2]).1.map (fun r => r.category) = [Category.dumping] ∧
    (fallbackAggregate [infoU]).1.map (fun r => r.category) = [Category.dumping] ∧
    (fallbackAggregate [infoU]).1.map (fun r => r.priceChange24) = [0] ∧
    Category.pumping ≠ Category.neutral ∧ Category.dumping ≠ Category.pumping := by
  refine ⟨by with_unfolding_all decide, by with_unfolding_all decide,
    by with_unfolding_all decide, by with_unfolding_all decide,
    by with_unfolding_all decide, by simp, by simp⟩

/-- C2 witness: the category law instantiated on a concrete scored primary
record and a concrete scored fallback record. -/
theorem c2_category_witness :
    ((((scriptAggregated tm1 bases1).headD default).category = Category.pumping ↔
        0 ≤ ((scriptAggregated tm1 bases1).headD default).priceChange24) ∧
      (((scriptAggregated tm1 bases1).headD default).category = Category.dumping ↔
        ((scriptAggregated tm1 bases1).headD default).priceChange24 < 0) ∧
      ((scriptAggregated tm1 bases1).headD default).category ≠ Category.neutral) ∧
    (∃ info ∈ [infoF],
      ((fallbackAggregate [infoF]).1.headD default).category = fbCategory info) ∧
    ((fallbackAggregate [infoF]).1.headD default).category ≠ Category.neutral :=
  ⟨c2_category_rule.1 tm1 bases1 _ (by with_unfolding_all decide),
    (c2_category_rule.2.1 [infoF] _ (by with_unfolding_all decide)).1,
    (c2_category_rule.2.1 [infoF] _ (by with_unfolding_all decide)).2⟩

/-- C3 (corrected): in script.js the momentum score of every scored primary
record is `predictedAmplitude * volRatio * earlyFactor`, where the volume
ratio divides by the running maximum volume (which may have been raised by a
base later excluded from scoring) and is 0 when that maximum is not
positive.  The 24h-change magnitude does not appear in this formula. -/
theorem c3_momentum_formula (tm : String → Option RawTicker)
    (bases : List (String × List String)) (r : ScoredRec)
    (hr : r ∈ scriptScored tm bases) :
    r.momentumScore = r.predictedAmplitude *
      (if 0 < scriptMaxVolume tm bases then r.totalVolume / scriptMaxVolume tm bases else 0) *
      (1 - r.completion / 100) := by
  unfold scriptScored at hr
  rcases List.mem_map.mp hr with ⟨a, -, rfl⟩
  rfl

/-- C3 counterexample: a run with a volume-rich but price-invalid base and
one scored record.  The code scores it 1 (amplitude 20 times volume ratio
100/1000 times early factor 1/2), while the claimed formula (volume share
within the scored population times 24h-change magnitude times early factor)
gives 5. -/
theorem c3_momentum_counterexample :
    (scriptScored tmC3 basesC3).map (fun r => r.momentumScore) = [1] ∧
    (scriptScored tmC3 basesC3).map
      (fun r => specMomentumScore (scriptScored tmC3 basesC3) r) = [5] ∧
    (1 : ℚ) ≠ 5 := by
  refine ⟨by with_unfolding_all decide, by with_unfolding_all decide,
    by norm_num⟩

/-- C3 witness: the corrected momentum formula instantiated on a concrete
scored record. -/
theorem c3_momentum_witness :
    ((scriptScored tm1 bases1).headD default).momentumScore =
      ((scriptScored tm1 bases1).headD default).predictedAmplitude *
        (if 0 < scriptMaxVolume tm1 bases1 then
          ((scriptScored tm1 bases1).headD default).totalVolume / scriptMaxVolume tm1 bases1
        else 0) *
        (1 - ((scriptScored tm1 bases1).headD default).completion / 100) :=
  c3_momentum_formula tm1 bases1 _ (by with_unfolding_all decide)

/-- C5 (confirmed): every token of the ranked primary output has a strictly
positive predicted amplitude, and every scored fallback record has a strictly
positive amplitude: records with a non-positive amplitude are dropped before
scoring and never appear downstream. -/
theorem c5_amplitude_positive :
    (∀ (tm : String → Option RawTicker) (bases : List (String × List String))
        (h : HighToken), h ∈ scriptRanked tm bases → 0 < h.tok.predictedAmplitude) ∧
    ∀ (markets : List MarketInfo) (r : FallbackRec),
      r ∈ (fallbackAggregate markets).1 → 0 < r.amplitude := by
  constructor
  · intro tm bases h hh
    have htok : h.tok ∈ scriptSorted tm bases :=
      tok_mem_markHighlights _ _ _ h hh
    unfold scriptSorted at htok
    rw [mem_sortByKeyDesc] at htok
    unfold scriptScored at htok
    rcases List.mem_map.mp htok with ⟨a, ha, heq⟩
    have hamp : h.tok.predictedAmplitude = a.predictedAmplitude := by
      rw [← heq]
      rfl
    rw [hamp]
    exact (mem_scriptAggregated_inv tm bases a ha).2.2.2.1
  · intro markets r hr
    exact (mem_fallbackAggregate_inv markets r hr).1

/-- C5 witness: the amplitude positivity instantiated on a concrete ranked
token and a concrete fallback record. -/
theorem c5_amplitude_witness :
    0 < ((scriptRanked tm1 bases1).headD default).tok.predictedAmplitude ∧
    0 < ((fallbackAggregate [infoF]).1.headD default).amplitude :=
  ⟨c5_amplitude_positive.1 tm1 bases1 _ (by with_unfolding_all decide),
    c5_amplitude_positive.2 [infoF] _ (by with_unfolding_all decide)⟩

/-- C10 (confirmed): for every scored primary record the open price satisfies
the claimed derivation: the denominator `1 + changePct24h / 100` is nonzero,
the open price equals `currentPrice / (1 + changePct24h / 100)` whenever the
24h change is not -100, and the `-100` branch (open price = current price) is
vacuously satisfied because a record with 24h change -100 would need a falsy
last price and is excluded before scoring, so the division never produces
Infinity. -/
theorem c10_open_price (tm : String → Option RawTicker)
    (bases : List (String × List String)) (r : AggRecord)
    (hr : r ∈ scriptAggregated tm bases) :
    1 + r.priceChange24 / 100 ≠ 0 ∧
    (r.priceChange24 ≠ -100 → r.open24 = r.last / (1 + r.priceChange24 / 100)) ∧
    (r.priceChange24 = -100 → r.open24 = r.last) := by
  obtain ⟨ho, hl, hpc, -, -, -, -, -, -⟩ := mem_scriptAggregated_inv tm bases r hr
  have key : (1 + r.priceChange24 / 100) * r.open24 = r.last := by
    rw [hpc]
    field_simp
    ring
  have hne : 1 + r.priceChange24 / 100 ≠ 0 := by
    intro h0
    rw [h0, zero_mul] at key
    exact hl key.symm
  refine ⟨hne, fun _ => ?_, fun h100 => ?_⟩
  · rw [eq_div_iff hne, mul_comm]
    exact key
  · exfalso
    rw [h100] at key
    have hz : (1 : ℚ) + (-100 : ℚ) / 100 = 0 := by norm_num
    rw [hz, zero_mul] at key
    exact hl key.symm

/-- C10 witness: the open-price derivation instantiated on a concrete scored
record. -/
theorem c10_open_price_witness :
    ((scriptAggregated tm1 bases1).headD default).priceChange24 ≠ -100 ∧
    ((scriptAggregated tm1 bases1).headD default).open24 =
      ((scriptAggregated tm1 bases1).headD default).last /
        (1 + ((scriptAggregated tm1 bases1).headD default).priceChange24 / 100) :=
  ⟨by with_unfolding_all decide,
    (c10_open_price tm1 bases1 _ (by with_unfolding_all decide)).2.1
      (by with_unfolding_all decide)⟩

/-- C4 (code bug): a fallback market record carrying a positive volume and a
valid 24h range but no change-percentage field at all is scored, yet its
completion is NaN (`none`), outside [0, 100]: the 1h proxy becomes
`Math.abs(undefined) / 24 = NaN` and `Math.min`/`Math.max` propagate NaN
through the clamp, contradicting the clamp the source itself documents. -/
theorem c4_completion_nan :
    (fallbackAggregate [infoNaN]).1.map (fun r => r.completion) = [none] := by
  with_unfolding_all decide

/-- C6 (confirmed): whenever the primary scored population is nonempty, the
number of highlighted tokens in the ranked output equals
`max(1, round(n * 0.1))` for the population size `n`, and exactly the tokens
at rank index below that count are highlighted (every token in the prefix of
that length is highlighted and every later token is not). -/
theorem c6_highlight_count (tm : String → Option RawTicker)
    (bases : List (String × List String))
    (hn : 1 ≤ (scriptAggregated tm bases).length) :
    ((scriptRanked tm bases).filter (fun h => h.highlight)).length =
      scriptHighlightCount tm bases ∧
    (∀ h ∈ (scriptRanked tm bases).take (scriptHighlightCount tm bases),
      h.highlight = true) ∧
    ∀ h ∈ (scriptRanked tm bases).drop (scriptHighlightCount tm bases),
      h.highlight = false := by
  refine ⟨?_, ?_, ?_⟩
  · unfold scriptRanked
    rw [count_markHighlights, Nat.sub_zero, length_scriptSorted]
    exact min_eq_right (highlightCountOf_le hn)
  · intro h hh
    refine mem_take_markHighlights (scriptHighlightCount tm bases) 0 (scriptSorted tm bases)
      h ?_
    rw [Nat.sub_zero]
    exact hh
  · intro h hh
    refine mem_drop_markHighlights (scriptHighlightCount tm bases) 0 (scriptSorted tm bases)
      h ?_
    rw [Nat.sub_zero]
    exact hh

/-- C6 witness: a concrete population of exactly 10 scored tokens has exactly
1 highlighted token. -/
theorem c6_highlight_witness :
    1 ≤ (scriptAggregated tmMany basesW).length ∧
    ((scriptRanked tmMany basesW).filter (fun h => h.highlight)).length = 1 := by
  have hn : 1 ≤ (scriptAggregated tmMany basesW).length := by with_unfolding_all decide
  refine ⟨hn, ?_⟩
  rw [(c6_highlight_count tmMany basesW hn).1]
  with_unfolding_all decide

/-- C7 (corrected): the part_001 variant truncates its ranked output to at
most 100 records via `slice(0, 100)`, but the script.js primary pipeline
never truncates: its ranked output has exactly the length of the scored
population. -/
theorem c7_truncation :
    (∀ data : List CGToken, (part001TopTokens data).length ≤ 100) ∧
    ∀ (tm : String → Option RawTicker) (bases : List (String × List String)),
      (scriptRanked tm bases).length = (scriptAggregated tm bases).length := by
  constructor
  · intro data
    unfold part001TopTokens
    simp [List.length_take_le]
  · exact length_scriptRanked

/-- C7 counterexample: a primary run with 101 scored base currencies hands
all 101 records to the presenter, exceeding the claimed bound of 100. -/
theorem c7_truncation_counterexample :
    (scriptRanked tmMany basesC7).length = 101 ∧ ¬ (101 : ℕ) ≤ 100 := by
  constructor
  · rw [length_scriptRanked]
    with_unfolding_all decide
  · simp

/-- C8 (confirmed): the sorted primary population is ordered by momentum
score in non-increasing fashion, and the sort is stable: for every score
value, the records carrying that score appear in the same order as in the
scored input population. -/
theorem c8_sort_stable (tm : String → Option RawTicker)
    (bases : List (String × List String)) :
    List.Pairwise (fun a b => b.momentumScore ≤ a.momentumScore)
      (scriptSorted tm bases) ∧
    ∀ q : ℚ, (scriptSorted tm bases).filter (fun t => decide (t.momentumScore = q)) =
      (scriptScored tm bases).filter (fun t => decide (t.momentumScore = q)) := by
  constructor
  · exact pairwise_sortByKeyDesc (fun t => t.momentumScore) (scriptScored tm bases)
  · intro q
    exact filter_sortByKeyDesc (fun t => t.momentumScore) q (scriptScored tm bases)

/-- C9 (confirmed): the search filter is idempotent: filtering an already
filtered population with the same query changes nothing; and the empty query
returns the population unchanged. -/
theorem c9_filter_idempotent :
    (∀ (toks : List DisplayToken) (q : String),
      filterTokens (filterTokens toks q) q = filterTokens toks q) ∧
    ∀ toks : List DisplayToken, filterTokens toks "" = toks := by
  constructor
  · intro toks q
    unfold filterTokens
    by_cases hq : jsToLower q.trim = ""
    · simp [hq]
    · simp only [if_neg hq]
      rw [List.filter_filter]
      congr 1
      funext t
      exact Bool.and_self _
  · intro toks
    have hq : jsToLower "".trim = "" := by with_unfolding_all decide
    simp [filterTokens, hq]
